import Mathlib

/-!
Verification of the grid-parser pipeline (`src/grid_parser.py`).

The Python strings are shallowly embedded as lists of Unicode code points
(`PyStr := List Char`): Python's `len` on a `str` counts code points, exactly
as `List.length` does here.  Python's `str.isdigit` is modelled for the ASCII
digits `0`-`9` (the non-ASCII code points Python additionally classifies as
digits are irrelevant to every token considered here).  A Python function that
can raise an exception is embedded as an `Option`-valued function, `none`
standing for the exception propagating to the caller.
-/

/-- A Python string, as its sequence of Unicode code points. -/
abbrev PyStr := List Char

/-- A recovered entry `(x, y, char)`, as the tuples built by
`extract_entries`: `x` and `y` are Python ints, `char` the single-character
token string. -/
abbrev Entry := Int × Int × PyStr

/-- The grid buffer `[[" "] * width for _ in range(height)]`: a list of rows,
each row a list of one-character cell strings. -/
abbrev Grid := List (List PyStr)

/-- Models Python `s.lstrip('-')`: drop every leading `'-'`. -/
def lstripDash (s : PyStr) : PyStr := s.dropWhile (fun c => c = '-')

/-- Models Python `s.isdigit()` restricted to ASCII digits: `True` iff the
string is non-empty and every code point is a digit. -/
def isdigitStr (s : PyStr) : Bool := !s.isEmpty && s.all Char.isDigit

/-- Decimal value of a digit string. -/
def digitsToNat (s : PyStr) : Nat := s.foldl (fun a c => 10 * a + (c.toNat - '0'.toNat)) 0

/-- Models Python `int(s)` on the token strings that can reach it in this
program (no internal whitespace, no `'+'`, no underscores): an optional single
leading `'-'` followed by a non-empty run of digits parses, anything else
raises `ValueError` (embedded as `none`). -/
def pyInt : PyStr → Option Int
  | [] => none
  | c :: rest =>
      if c = '-' then
        if !rest.isEmpty && rest.all Char.isDigit then some (-(digitsToNat rest : Int)) else none
      else
        if (c :: rest).all Char.isDigit then some ((digitsToNat (c :: rest) : Int)) else none

/-- Models `extract_entries(tokens)` (`grid_parser.py`, lines 44-54): sliding-window
scan over the tokens.  While at least three tokens remain, examine the window
`xs, ch, ys`; if `xs.lstrip('-').isdigit() and ys.lstrip('-').isdigit() and
len(ch) == 1`, append `(int(xs), int(ys), ch)` and advance by 3, otherwise
advance by 1.  `int(...)` can raise even when the guard passed (e.g. on
`"--5"`), which aborts the whole call: that is the `none` result. -/
def extract_entries : List PyStr → Option (List Entry)
  | xs :: ch :: ys :: rest =>
      if isdigitStr (lstripDash xs) && isdigitStr (lstripDash ys) && ch.length = 1 then
        match pyInt xs, pyInt ys with
        | some x, some y => (extract_entries rest).map (fun es => (x, y, ch) :: es)
        | _, _ => none
      else
        extract_entries (ch :: ys :: rest)
  | _ => some []

/-- Models Python `text.strip()` (for the whitespace code points Lean's
`Char.isWhitespace` covers): trim leading and trailing whitespace. -/
def pyStrip (s : PyStr) : PyStr :=
  ((s.dropWhile Char.isWhitespace).reverse.dropWhile Char.isWhitespace).reverse

/-- Maximal whitespace-free runs of a character list, accumulator style; the
accumulator holds the current run reversed. -/
def wsTokensAux : List Char → PyStr → List PyStr
  | [], acc => if acc.isEmpty then [] else [acc.reverse]
  | c :: cs, acc =>
      if c.isWhitespace then
        if acc.isEmpty then wsTokensAux cs [] else acc.reverse :: wsTokensAux cs []
      else
        wsTokensAux cs (c :: acc)

/-- Models `re.split(r"\s+", text.strip())` (`grid_parser.py`, line 80).
`re.split` always returns at least one field: on an empty (or all-whitespace)
input it returns `[""]`, a single empty token; on a non-blank stripped input
it returns the maximal whitespace-free runs, all non-empty. -/
def tokenize (text : PyStr) : List PyStr :=
  let t := pyStrip text
  if t.isEmpty then [[]] else wsTokensAux t []

/-- Python index resolution for a list of length `n`: `0 ≤ i < n` is used as
is, `-n ≤ i < 0` wraps to `n + i`, anything else raises `IndexError`. -/
def pyIdx (n : Nat) (i : Int) : Option Nat :=
  if 0 ≤ i ∧ i < (n : Int) then some i.toNat
  else if -(n : Int) ≤ i ∧ i < 0 then some ((n : Int) + i).toNat
  else none

/-- Models `row[x] = ch` on a Python list: resolve the (possibly negative)
index, then update. -/
def pySetCell (row : List PyStr) (x : Int) (ch : PyStr) : Option (List PyStr) :=
  (pyIdx row.length x).map (fun k => row.set k ch)

/-- Models `grid[y][x] = ch`: resolve the row index (wrapping negatives),
then assign within that row; either index out of range raises. -/
def pySet2 (g : Grid) (y x : Int) (ch : PyStr) : Option Grid :=
  match pyIdx g.length y with
  | none => none
  | some r => (pySetCell (g.getD r []) x ch).map (fun row => g.set r row)

/-- Models `max(e[0] for e in entries)` — meaningful only for a non-empty list
(Python raises on an empty one, and the caller guards against that). -/
def maxX : List Entry → Int
  | [] => 0
  | e :: es => es.foldl (fun m e2 => max m e2.1) e.1

/-- Models `max(e[1] for e in entries)` — meaningful only for a non-empty list. -/
def maxY : List Entry → Int
  | [] => 0
  | e :: es => es.foldl (fun m e2 => max m e2.2.1) e.2.1

/-- Models `[[" "] * width for _ in range(height)]`: `height` rows, each `width`
blank one-character strings; a non-positive dimension yields an empty
replication, exactly as Python's `range`/`*` do. -/
def blankGrid (width height : Int) : Grid :=
  List.replicate height.toNat (List.replicate width.toNat [' '])

/-- The placement loop `for x, y, ch in entries: grid[y][x] = ch`, threading
the possibility of an `IndexError`. -/
def placeEntries : List Entry → Grid → Option Grid
  | [], g => some g
  | (x, y, ch) :: es, g =>
      match pySet2 g y x ch with
      | none => none
      | some g2 => placeEntries es g2

/-- Grid assembly (`grid_parser.py`, lines 115-122): compute `max_x`, `max_y`,
allocate a `(max_y+1) × (max_x+1)` blank buffer and place every entry in list
order.  Only called on a non-empty entry list. -/
def assembleGrid (es : List Entry) : Option Grid :=
  placeEntries es (blankGrid (maxX es + 1) (maxY es + 1))

/-- The output loop `for row in range(height - 1, -1, -1): print("".join(grid[row]))`
(`grid_parser.py`, lines 125-126): one string per row, rows emitted from index
`height - 1` down to `0`. -/
def renderGrid (g : Grid) : List PyStr :=
  ((List.range g.length).reverse).map (fun r => (g.getD r []).flatten)

/-- Outcome of one run of the pipeline core: either the `NoEntries` terminal
report (`"❌ No entries found!"`) or the rendered row strings. -/
inductive RenderResult
  | noEntries : RenderResult
  | grid : List PyStr → RenderResult
deriving DecidableEq, Repr

/-- Entry selection including the fallback branch (`grid_parser.py`,
lines 97-107): run `extract_entries` on `data`; if that raised, the exception
propagates.  Otherwise, when `not entries or len(data) % 3 != 0` and a
structured cell list is available (BeautifulSoup present and a `<table>`
found), drop that list's first three cells and re-run `extract_entries` on
the rest, REPLACING the primary result. -/
def selectEntries (data : List PyStr) (cellsOpt : Option (List PyStr)) : Option (List Entry) :=
  match extract_entries data with
  | none => none
  | some primary =>
      match cellsOpt with
      | some cells =>
          if primary.isEmpty || data.length % 3 ≠ 0 then extract_entries (cells.drop 3)
          else some primary
      | none => some primary

/-- The pure core of `print_grid_from_doc` (`grid_parser.py`, lines 56-126),
after the fetch: tokenize the raw text, drop the three header tokens, select
entries (with the HTML-table fallback modelled by the optional cell list),
report `NoEntries` on an empty selection, otherwise assemble and render the
grid.  `none` is an uncaught exception (`ValueError` from `int`, or
`IndexError` from a negative coordinate out of wrap range). -/
def print_grid_from_doc (rawText : PyStr) (cellsOpt : Option (List PyStr)) :
    Option RenderResult :=
  let data := (tokenize rawText).drop 3
  match selectEntries data cellsOpt with
  | none => none
  | some entries =>
      if entries.isEmpty then some RenderResult.noEntries
      else (assembleGrid entries).map (fun g => RenderResult.grid (renderGrid g))

/-- The SPEC's well-formedness of a coordinate token (§4.2): "a well-formed
optionally-negative integer literal (string of digits, optionally prefixed by
a single `-`)".  Stated from the spec's words, to be compared with the code's
`lstrip('-').isdigit()` guard. -/
def specIntLiteral : PyStr → Bool
  | [] => false
  | c :: rest =>
      if c = '-' then !rest.isEmpty && rest.all Char.isDigit
      else (c :: rest).all Char.isDigit

/-- Total integer value of a well-formed (single-dash) literal. -/
def intOfTok : PyStr → Int
  | [] => 0
  | c :: rest => if c = '-' then -(digitsToNat rest : Int) else (digitsToNat (c :: rest) : Int)

/-- Cell lookup used to state grid properties. -/
def cell (g : Grid) (y x : Nat) : PyStr := (g.getD y []).getD x []

/-- The character written last at coordinate `(x, y)` by the entry list, if
any: later entries take precedence over earlier ones. -/
def lastWrite : List Entry → Int → Int → Option PyStr
  | [], _, _ => none
  | e :: es, x, y =>
      match lastWrite es x y with
      | some c => some c
      | none => if e.1 = x ∧ e.2.1 = y then some e.2.2 else none

/-- A grid of `h` rows, each of width `w`. -/
def rect (g : Grid) (h w : Nat) : Prop := g.length = h ∧ ∀ row ∈ g, row.length = w

/-! ## Helper lemmas -/

/-- A digit code point is not `'-'`. -/
lemma digit_ne_dash (c : Char) (hc : c.isDigit = true) : ¬ (c = '-') := by
  intro h
  subst h
  simp [Char.isDigit] at hc

/-- A non-empty all-digit string has no leading `'-'` to strip. -/
lemma lstripDash_of_all_digit (s : PyStr) (hd : s.all Char.isDigit = true) :
    lstripDash s = s := by
  cases s with
  | nil => rfl
  | cons c cs =>
      rw [List.all_cons, Bool.and_eq_true] at hd
      simp [lstripDash, List.dropWhile_cons, digit_ne_dash c hd.1]

/-- A spec-well-formed literal passes the code's `lstrip('-').isdigit()` guard. -/
lemma spec_guard (s : PyStr) (h : specIntLiteral s = true) :
    isdigitStr (lstripDash s) = true := by
  cases s with
  | nil => simp [specIntLiteral] at h
  | cons c rest =>
      by_cases hc : c = '-'
      · subst hc
        rw [specIntLiteral, if_pos rfl, Bool.and_eq_true] at h
        have hstep : lstripDash ('-' :: rest) = lstripDash rest := by
          simp [lstripDash, List.dropWhile_cons]
        rw [hstep, lstripDash_of_all_digit rest h.2]
        simp [isdigitStr, h.1, h.2]
      · rw [specIntLiteral, if_neg hc] at h
        rw [lstripDash_of_all_digit _ h]
        simp [isdigitStr, h]

/-- A spec-well-formed literal parses: `int` succeeds and yields `intOfTok`. -/
lemma spec_pyInt (s : PyStr) (h : specIntLiteral s = true) :
    pyInt s = some (intOfTok s) := by
  cases s with
  | nil => simp [specIntLiteral] at h
  | cons c rest =>
      by_cases hc : c = '-'
      · subst hc
        rw [specIntLiteral, if_pos rfl] at h
        simp [pyInt, intOfTok, h]
      · rw [specIntLiteral, if_neg hc] at h
        simp [pyInt, intOfTok, hc, h]

/-- A literal that is not spec-well-formed makes `int` raise. -/
lemma pyInt_none_of_not_spec (s : PyStr) (h : specIntLiteral s = false) :
    pyInt s = none := by
  cases s with
  | nil => rfl
  | cons c rest =>
      by_cases hc : c = '-'
      · subst hc
        rw [specIntLiteral, if_pos rfl] at h
        simp [pyInt, h]
      · rw [specIntLiteral, if_neg hc] at h
        simp [pyInt, hc, h]

/-- Tokens produced by the run-splitter are never empty. -/
lemma wsTokensAux_ne_nil (s : List Char) : ∀ acc t, t ∈ wsTokensAux s acc → t ≠ [] := by
  induction s with
  | nil =>
      intro acc t ht
      cases hacc : acc.isEmpty with
      | true => simp [wsTokensAux, hacc] at ht
      | false =>
          have hne : acc ≠ [] := by
            intro h
            rw [h] at hacc
            simp at hacc
          simp [wsTokensAux, hacc] at ht
          subst ht
          simp only [ne_eq, List.reverse_eq_nil_iff]
          exact hne
  | cons c cs ih =>
      intro acc t ht
      cases hw : c.isWhitespace with
      | true =>
          cases hacc : acc.isEmpty with
          | true =>
              simp only [wsTokensAux, hw, hacc, if_true] at ht
              exact ih [] t ht
          | false =>
              have hne : acc ≠ [] := by
                intro h
                rw [h] at hacc
                simp at hacc
              simp only [wsTokensAux, hw, hacc, if_true, if_false, Bool.false_eq_true,
                List.mem_cons] at ht
              rcases ht with ht | ht
              · subst ht
                simp only [ne_eq, List.reverse_eq_nil_iff]
                exact hne
              · exact ih [] t ht
      | false =>
          simp only [wsTokensAux, hw, Bool.false_eq_true, if_false] at ht
          exact ih (c :: acc) t ht

/-! ## Claims -/

/-- Claim C1, amended.  A window whose coordinate tokens are well-formed
single-dash integer literals and whose middle token is a single code point is
accepted and emits `(int(xs), int(ys), ch)`.  However the code's acceptance
test is `lstrip('-').isdigit()`, which strips EVERY leading dash: a window is
skipped exactly when that broader test (or the length test) fails, and a
window accepted with a multi-dash coordinate token makes `int` raise instead
of emitting an entry. -/
theorem extract_entries_window (xs ch ys : PyStr) (rest : List PyStr) :
    (specIntLiteral xs = true → specIntLiteral ys = true → ch.length = 1 →
      extract_entries (xs :: ch :: ys :: rest) =
        (extract_entries rest).map (fun es => (intOfTok xs, intOfTok ys, ch) :: es))
    ∧ ((isdigitStr (lstripDash xs) && isdigitStr (lstripDash ys) && ch.length = 1) = false →
      extract_entries (xs :: ch :: ys :: rest) = extract_entries (ch :: ys :: rest))
    ∧ ((isdigitStr (lstripDash xs) && isdigitStr (lstripDash ys) && ch.length = 1) = true →
      (specIntLiteral xs = false ∨ specIntLiteral ys = false) →
      extract_entries (xs :: ch :: ys :: rest) = none) := by
  refine ⟨fun h1 h3 h2 => ?_, fun hg => ?_, fun hg hbad => ?_⟩
  · simp [extract_entries, spec_guard _ h1, spec_guard _ h3, h2,
      spec_pyInt _ h1, spec_pyInt _ h3]
  · simp only [extract_entries, hg]
    simp
  · rcases hbad with hx | hy
    · simp [extract_entries, hg, pyInt_none_of_not_spec _ hx]
    · cases hpx : pyInt xs <;>
        simp [extract_entries, hg, hpx, pyInt_none_of_not_spec _ hy]

/-- Witness for C1: the well-formed window `["0", "A", "-2"]` is accepted and
emits its entry. -/
theorem extract_entries_window_witness :
    extract_entries ["0".toList, "A".toList, "-2".toList] =
      (extract_entries []).map (fun es => (intOfTok "0".toList, intOfTok "-2".toList, "A".toList) :: es) :=
  (extract_entries_window "0".toList "A".toList "-2".toList []).1 (by decide) (by decide)
    (by decide)

/-- Counterexample to C1 as stated: `"--5"` is not a well-formed
optionally-negative integer literal, so the claim says the window
`["--5", "A", "1"]` is rejected and skipped (the scan would then end with no
entries, `some []`); the code instead accepts the window (its guard strips
every leading dash) and `int("--5")` raises, aborting extraction (`none`). -/
theorem extract_entries_window_cex :
    specIntLiteral "--5".toList = false ∧
    extract_entries ["--5".toList, "A".toList, "1".toList] ≠ some [] ∧
    extract_entries ["--5".toList, "A".toList, "1".toList] = none := by decide

/-- Claim C2 (code bug): the extractor is claimed never to raise, but on the
token list `["--5", "A", "0"]` the guard passes (`"--5".lstrip('-')` is
`"5"`) and `int("--5")` raises `ValueError`, modelled here as `none` instead
of a returned list. -/
theorem extract_entries_exception :
    extract_entries ["--5".toList, "A".toList, "0".toList] = none := by decide

/-- Claim C3: on input made of consecutive well-formed `<x> <char> <y>`
triples, the sliding-window scan recovers exactly one entry per triple, in
source order. -/
theorem extract_entries_recovers_triples (L : List (PyStr × PyStr × PyStr))
    (h : ∀ t ∈ L, specIntLiteral t.1 = true ∧ t.2.1.length = 1 ∧ specIntLiteral t.2.2 = true) :
    extract_entries ((L.map (fun t => [t.1, t.2.1, t.2.2])).flatten) =
      some (L.map (fun t => (intOfTok t.1, intOfTok t.2.2, t.2.1))) := by
  induction L with
  | nil => rfl
  | cons t L ih =>
      obtain ⟨h1, h2, h3⟩ := h t (by simp)
      have hrest : ∀ t' ∈ L, specIntLiteral t'.1 = true ∧ t'.2.1.length = 1 ∧
          specIntLiteral t'.2.2 = true := fun t' ht' => h t' (List.mem_cons_of_mem _ ht')
      have hflat : ((t :: L).map (fun t => [t.1, t.2.1, t.2.2])).flatten =
          t.1 :: t.2.1 :: t.2.2 :: (L.map (fun t => [t.1, t.2.1, t.2.2])).flatten := by
        simp
      rw [hflat]
      simp [extract_entries, spec_guard _ h1, spec_guard _ h3, h2,
        spec_pyInt _ h1, spec_pyInt _ h3, ih hrest]

/-- Witness for C3: two well-formed triples yield exactly their two entries. -/
theorem extract_entries_recovers_triples_witness :
    extract_entries (([("0".toList, "A".toList, "0".toList),
        ("1".toList, "B".toList, "-2".toList)].map (fun t => [t.1, t.2.1, t.2.2])).flatten) =
      some ([("0".toList, "A".toList, "0".toList),
        ("1".toList, "B".toList, "-2".toList)].map
          (fun t => (intOfTok t.1, intOfTok t.2.2, t.2.1))) :=
  extract_entries_recovers_triples _ (by decide)

/-- Claim C8, amended.  The tokenizer trims the text and splits on runs of
whitespace; for non-blank input every produced token is non-empty.  But
`re.split` always returns at least one field: for empty (or all-whitespace)
input the token list is `[""]` — one empty token — not the empty sequence. -/
theorem tokenize_spec (text : PyStr) :
    (pyStrip text = [] → tokenize text = [[]])
    ∧ (pyStrip text ≠ [] → ∀ t ∈ tokenize text, t ≠ []) := by
  constructor
  · intro h
    simp [tokenize, h]
  · intro h t ht
    have hne : (pyStrip text).isEmpty = false := by
      cases hs : (pyStrip text).isEmpty
      · rfl
      · exact absurd (by simpa using hs) h
    rw [tokenize] at ht
    simp only [hne, Bool.false_eq_true, if_false] at ht
    exact wsTokensAux_ne_nil _ _ t ht

/-- Witness for C8: on `" a b"` the tokenizer yields only non-empty tokens. -/
theorem tokenize_spec_witness :
    pyStrip " a b".toList ≠ [] ∧ ∀ t ∈ tokenize " a b".toList, t ≠ [] :=
  ⟨by decide, (tokenize_spec " a b".toList).2 (by decide)⟩

/-- Counterexample to C8 as stated: on empty input the tokenizer does not
yield an empty sequence — it yields one empty token. -/
theorem tokenize_empty_cex :
    tokenize [] ≠ [] ∧ [] ∈ tokenize [] ∧ tokenize [] = [[]] := by decide

/-- Claim C9: the pipeline core is a pure function of the raw text and the
structured cells — identical inputs give identical rendered output, with no
state carried across invocations. -/
theorem print_grid_deterministic (raw1 raw2 : PyStr) (oc1 oc2 : Option (List PyStr))
    (h1 : raw1 = raw2) (h2 : oc1 = oc2) :
    print_grid_from_doc raw1 oc1 = print_grid_from_doc raw2 oc2 := by
  rw [h1, h2]

/-- Witness for C9: two runs on the same concrete document agree. -/
theorem print_grid_deterministic_witness :
    "h h h 0 A 0".toList = "h h h 0 A 0".toList ∧
    print_grid_from_doc "h h h 0 A 0".toList none =
      print_grid_from_doc "h h h 0 A 0".toList none :=
  ⟨rfl, print_grid_deterministic _ _ none none rfl rfl⟩

/-- Claim C4, amended.  `print_grid_from_doc` reports `NoEntries` iff the
entry list actually used is empty; but when the fallback fires (primary scan
empty OR data token count not divisible by 3, with structured cells
available) its result REPLACES the primary scan's, so `NoEntries` can be
reported even though the primary scan recovered valid triples. -/
theorem print_grid_noEntries_iff (raw : PyStr) (oc : Option (List PyStr)) :
    print_grid_from_doc raw oc = some RenderResult.noEntries ↔
      selectEntries ((tokenize raw).drop 3) oc = some [] := by
  rw [print_grid_from_doc]
  cases hs : selectEntries ((tokenize raw).drop 3) oc with
  | none => simp
  | some es =>
      cases hes : es.isEmpty with
      | true =>
          have : es = [] := by simpa using hes
          simp [this]
      | false =>
          have hne : es ≠ [] := by
            intro h
            rw [h] at hes
            simp at hes
          simp only [hes, Bool.false_eq_true, if_false, Option.some_inj]
          constructor
          · intro h
            cases hg : assembleGrid es with
            | none => rw [hg] at h; simp at h
            | some g => rw [hg] at h; simp at h
          · intro h
            exact absurd (by simpa using h) hne

/-- Counterexample to C4 as stated: the raw text `"h h h 0 A 0 x"` contains
one valid triple recovered by the primary scan, yet (the data length being 7
tokens minus the header, not a multiple of 3) the fallback fires, finds no
triples in the structured cells, and `print_grid_from_doc` reports
`NoEntries` anyway. -/
theorem print_grid_fallback_discard_cex :
    extract_entries ((tokenize "h h h 0 A 0 x".toList).drop 3) = some [(0, 0, ['A'])] ∧
    print_grid_from_doc "h h h 0 A 0 x".toList
        (some ["a".toList, "b".toList, "c".toList]) = some RenderResult.noEntries := by
  decide

/-- Claim C6: the renderer emits one string per buffer row, each row the
left-to-right concatenation of its cells, rows ordered from `height - 1`
down to `0`. -/
theorem renderGrid_rows (g : Grid) (k : Nat) (hk : k < g.length) :
    (renderGrid g).length = g.length ∧
    (renderGrid g).getD k [] = (g.getD (g.length - 1 - k) []).flatten := by
  constructor
  · simp [renderGrid]
  · have hk2 : k < ((List.range g.length).reverse).length := by
      simpa using hk
    have hk3 : k < (renderGrid g).length := by
      simpa [renderGrid] using hk
    rw [List.getD_eq_getElem _ _ hk3]
    simp only [renderGrid, List.getElem_map, List.getElem_reverse, List.getElem_range,
      List.length_reverse, List.length_range]

/-- Witness for C6: a two-row buffer renders bottom row first. -/
theorem renderGrid_rows_witness :
    (0 : Nat) < ([[['a']], [['b']]] : Grid).length ∧
    (renderGrid [[['a']], [['b']]]).length = ([[['a']], [['b']]] : Grid).length ∧
    (renderGrid [[['a']], [['b']]]).getD 0 [] =
      (([[['a']], [['b']]] : Grid).getD (([[['a']], [['b']]] : Grid).length - 1 - 0) []).flatten :=
  ⟨by decide, (renderGrid_rows [[['a']], [['b']]] 0 (by decide)).1,
    (renderGrid_rows [[['a']], [['b']]] 0 (by decide)).2⟩

/-- When the primary scan produced entries and the token count passes the
sanity check, the fallback is not consulted. -/
lemma selectEntries_no_fallback (data : List PyStr) (cells : List PyStr) (p : List Entry)
    (hp : extract_entries data = some p) (hne : p ≠ []) (hmod : data.length % 3 = 0) :
    selectEntries data (some cells) = some p := by
  have hpe : p.isEmpty = false := by
    cases hq : p.isEmpty
    · rfl
    · exact absurd (by simpa using hq) hne
  simp [selectEntries, hp, hpe, hmod]

/-- When the fallback condition holds, selection comes from the cells with
their first three dropped. -/
lemma selectEntries_fallback (data : List PyStr) (cells : List PyStr) (p : List Entry)
    (hp : extract_entries data = some p) (hfire : p = [] ∨ data.length % 3 ≠ 0) :
    selectEntries data (some cells) = extract_entries (cells.drop 3) := by
  rcases hfire with hfire | hfire
  · subst hfire
    simp [selectEntries, hp]
  · simp [selectEntries, hp, hfire]

/-- Without structured cells, selection is the primary scan's result. -/
lemma selectEntries_none (data : List PyStr) (p : List Entry)
    (hp : extract_entries data = some p) :
    selectEntries data none = some p := by
  simp [selectEntries, hp]

/-- Claim C7: the fallback is consulted only when the primary scan found no
entries or the token-count sanity check failed (otherwise supplying cells
changes nothing); when it fires, the first three cells are dropped and the
same scan runs on the rest. -/
theorem fallback_contract (raw : PyStr) (cells : List PyStr) (p : List Entry)
    (hp : extract_entries ((tokenize raw).drop 3) = some p) :
    (p ≠ [] → ((tokenize raw).drop 3).length % 3 = 0 →
      print_grid_from_doc raw (some cells) = print_grid_from_doc raw none)
    ∧ ((p = [] ∨ ((tokenize raw).drop 3).length % 3 ≠ 0) →
      selectEntries ((tokenize raw).drop 3) (some cells) = extract_entries (cells.drop 3))
    ∧ print_grid_from_doc "q w e 1 AB 2".toList
        (some ["h1".toList, "h2".toList, "h3".toList, "0".toList, "X".toList, "0".toList]) =
      some (RenderResult.grid ["X".toList]) := by
  refine ⟨fun hne hmod => ?_, fun hfire => ?_, by decide⟩
  · rw [print_grid_from_doc, print_grid_from_doc,
      selectEntries_no_fallback _ cells p hp hne hmod, selectEntries_none _ p hp]
  · exact selectEntries_fallback _ cells p hp hfire

/-- Witness for C7: a raw text whose primary scan finds nothing makes the
selection come from the structured cells with their header dropped. -/
theorem fallback_contract_witness :
    extract_entries ((tokenize "q w e 1 AB 2".toList).drop 3) = some [] ∧
    selectEntries ((tokenize "q w e 1 AB 2".toList).drop 3)
        (some ["h1".toList, "h2".toList, "h3".toList, "0".toList, "X".toList, "0".toList]) =
      extract_entries
        (["h1".toList, "h2".toList, "h3".toList, "0".toList, "X".toList, "0".toList].drop 3) :=
  ⟨by decide,
    (fallback_contract "q w e 1 AB 2".toList
      ["h1".toList, "h2".toList, "h3".toList, "0".toList, "X".toList, "0".toList] []
      (by decide)).2.1 (Or.inl rfl)⟩

/-- In-range index resolution. -/
lemma pyIdx_of_nonneg (n : Nat) (i : Int) (h0 : 0 ≤ i) (h1 : i < (n : Int)) :
    pyIdx n i = some i.toNat := by
  rw [pyIdx, if_pos ⟨h0, h1⟩]

/-- Negative in-wrap-range index resolution. -/
lemma pyIdx_of_neg (n : Nat) (i : Int) (h0 : -(n : Int) ≤ i) (h1 : i < 0) :
    pyIdx n i = some ((n : Int) + i).toNat := by
  rw [pyIdx, if_neg (by omega), if_pos ⟨h0, h1⟩]

/-- Out-of-wrap-range index resolution. -/
lemma pyIdx_of_lt (n : Nat) (i : Int) (h0 : i < -(n : Int)) :
    pyIdx n i = none := by
  rw [pyIdx, if_neg (by omega), if_neg (by omega)]

/-- Claim C10: a negative row index within `-height .. -1` is not rejected —
assignment lands on row `height + y` (and likewise a negative column lands on
column `width + x`), while a negative index of magnitude greater than the
dimension raises `IndexError`; no path reports negative coordinates as
invalid input. -/
theorem negative_index_wrap (g : Grid) (row : List PyStr) (y x : Int) (ch : PyStr) :
    (-(g.length : Int) ≤ y → y < 0 → pySet2 g y x ch = pySet2 g ((g.length : Int) + y) x ch)
    ∧ (-(row.length : Int) ≤ x → x < 0 →
        pySetCell row x ch = pySetCell row ((row.length : Int) + x) ch)
    ∧ (y < -(g.length : Int) → pySet2 g y x ch = none) := by
  refine ⟨fun h0 h1 => ?_, fun h0 h1 => ?_, fun h0 => ?_⟩
  · rw [pySet2, pySet2, pyIdx_of_neg _ _ h0 h1, pyIdx_of_nonneg _ _ (by omega) (by omega)]
  · rw [pySetCell, pySetCell, pyIdx_of_neg _ _ h0 h1, pyIdx_of_nonneg _ _ (by omega) (by omega)]
  · rw [pySet2, pyIdx_of_lt _ _ h0]

/-- Witness for C10: wrapping at `y = -1` on a 3-row grid targets row 2
(overwriting the entry placed there), and magnitude 4 against a height-1
grid aborts assembly. -/
theorem negative_index_wrap_witness :
    pySet2 [[[' ']], [[' ']], [[' ']]] (-1) 0 ['B'] =
      pySet2 [[[' ']], [[' ']], [[' ']]] ((3 : Int) + -1) 0 ['B'] ∧
    assembleGrid [(0, 2, ['A']), (0, -1, ['B'])] = some [[[' ']], [[' ']], [['B']]] ∧
    assembleGrid [(0, 0, ['A']), (0, -4, ['B'])] = none :=
  ⟨(negative_index_wrap [[[' ']], [[' ']], [[' ']]] [] (-1) 0 ['B']).1 (by decide) (by decide),
    by decide, by decide⟩

/-- Reading with `List.getD` after `List.set`, when the read index is in range. -/
lemma getD_set_list {α : Type} (l : List α) (i j : Nat) (a d : α) (hj : j < l.length) :
    (l.set i a).getD j d = if i = j then a else l.getD j d := by
  rw [List.getD_eq_getElem _ _ (by rw [List.length_set]; exact hj),
    List.getElem_set, List.getD_eq_getElem _ _ hj]

/-- The blank buffer is rectangular. -/
lemma rect_blank (w h : Nat) :
    rect (List.replicate h (List.replicate w ([' '] : PyStr))) h w := by
  constructor
  · exact List.length_replicate _ _
  · intro row hrow
    rw [List.eq_of_mem_replicate hrow]
    exact List.length_replicate _ _

/-- Every in-range cell of the blank buffer is the blank string. -/
lemma cell_blank (w h y x : Nat) (hy : y < h) (hx : x < w) :
    cell (List.replicate h (List.replicate w ([' '] : PyStr))) y x = [' '] := by
  have h1 : (List.replicate h (List.replicate w ([' '] : PyStr))).getD y [] =
      List.replicate w ([' '] : PyStr) := by
    rw [List.getD_eq_getElem _ _ (by simpa using hy), List.getElem_replicate]
  rw [cell, h1, List.getD_eq_getElem _ _ (by simpa using hx), List.getElem_replicate]

/-- The seed of a running maximum bounds the result. -/
lemma le_foldl_max (f : Entry → Int) (es : List Entry) (a : Int) :
    a ≤ es.foldl (fun m e => max m (f e)) a := by
  induction es generalizing a with
  | nil => exact le_refl a
  | cons e es ih =>
      simp only [List.foldl_cons]
      exact le_trans (le_max_left a (f e)) (ih (max a (f e)))

/-- Every listed value bounds into the running maximum. -/
lemma mem_le_foldl_max (f : Entry → Int) (es : List Entry) (a : Int) :
    ∀ e ∈ es, f e ≤ es.foldl (fun m e2 => max m (f e2)) a := by
  induction es generalizing a with
  | nil =>
      intro e he
      simp at he
  | cons e0 es ih =>
      intro e he
      simp only [List.foldl_cons]
      rcases List.mem_cons.mp he with rfl | he
      · exact le_trans (le_max_right a (f e)) (le_foldl_max f es _)
      · exact ih _ e he

/-- The computed `max_x` really bounds every entry's x. -/
lemma le_maxX (es : List Entry) (e : Entry) (he : e ∈ es) : e.1 ≤ maxX es := by
  cases es with
  | nil => simp at he
  | cons e0 es =>
      rw [maxX]
      rcases List.mem_cons.mp he with rfl | he
      · exact le_foldl_max (fun e2 => e2.1) es e.1
      · exact mem_le_foldl_max (fun e2 => e2.1) es e0.1 e he

/-- The computed `max_y` really bounds every entry's y. -/
lemma le_maxY (es : List Entry) (e : Entry) (he : e ∈ es) : e.2.1 ≤ maxY es := by
  cases es with
  | nil => simp at he
  | cons e0 es =>
      rw [maxY]
      rcases List.mem_cons.mp he with rfl | he
      · exact le_foldl_max (fun e2 => e2.2.1) es e.2.1
      · exact mem_le_foldl_max (fun e2 => e2.2.1) es e0.2.1 e he

/-- One in-range assignment `grid[ey][ex] = ch`: it succeeds, preserves the
shape, overwrites exactly the targeted cell and leaves every other cell as it
was. -/
lemma cell_pySet2 (g : Grid) (h w : Nat) (hg : rect g h w) (ey ex : Int) (ch : PyStr)
    (hy0 : 0 ≤ ey) (hy : ey < (h : Int)) (hx0 : 0 ≤ ex) (hx : ex < (w : Int)) :
    ∃ g2, pySet2 g ey ex ch = some g2 ∧ rect g2 h w ∧
      ∀ y x : Nat, y < h → x < w →
        cell g2 y x = if y = ey.toNat ∧ x = ex.toNat then ch else cell g y x := by
  obtain ⟨hlen, hrows⟩ := hg
  have hrg : ey.toNat < g.length := by rw [hlen]; omega
  have hrowlen : (g.getD ey.toNat []).length = w := by
    rw [List.getD_eq_getElem _ _ hrg]
    exact hrows _ (List.getElem_mem hrg)
  have hidx : pyIdx g.length ey = some ey.toNat :=
    pyIdx_of_nonneg _ _ hy0 (by rw [hlen]; exact hy)
  have hidx2 : pyIdx (g.getD ey.toNat []).length ex = some ex.toNat := by
    rw [hrowlen]
    exact pyIdx_of_nonneg _ _ hx0 hx
  have hset : pySet2 g ey ex ch =
      some (g.set ey.toNat ((g.getD ey.toNat []).set ex.toNat ch)) := by
    simp only [pySet2, pySetCell, hidx, hidx2, Option.map_some']
  refine ⟨_, hset, ⟨by rw [List.length_set]; exact hlen, ?_⟩, ?_⟩
  · intro row hrow
    rcases List.mem_or_eq_of_mem_set hrow with hrow | hrow
    · exact hrows _ hrow
    · rw [hrow, List.length_set]
      exact hrowlen
  · intro y x hyh hxw
    have hyg : y < g.length := by rw [hlen]; exact hyh
    simp only [cell]
    rw [getD_set_list g ey.toNat y _ [] hyg]
    by_cases hyr : ey.toNat = y
    · rw [if_pos hyr]
      rw [getD_set_list _ ex.toNat x ch [] (by rw [hrowlen]; exact hxw)]
      by_cases hxc : ex.toNat = x
      · rw [if_pos hxc, if_pos ⟨hyr.symm, hxc.symm⟩]
      · rw [if_neg hxc, if_neg (fun hcon => hxc hcon.2.symm), hyr]
    · rw [if_neg hyr, if_neg (fun hcon => hyr hcon.1.symm)]

/-- The placement loop on an in-bounds entry list: it succeeds, keeps the
buffer's shape, and each cell ends up holding its last write (or whatever it
held before when never written). -/
lemma placeEntries_spec : ∀ (es : List Entry) (g : Grid) (h w : Nat), rect g h w →
    (∀ e ∈ es, 0 ≤ e.1 ∧ e.1 < (w : Int) ∧ 0 ≤ e.2.1 ∧ e.2.1 < (h : Int)) →
    ∃ g', placeEntries es g = some g' ∧ rect g' h w ∧
      ∀ y x : Nat, y < h → x < w →
        cell g' y x = (lastWrite es (x : Int) (y : Int)).getD (cell g y x) := by
  intro es
  induction es with
  | nil =>
      intro g h w hg _
      exact ⟨g, rfl, hg, fun y x _ _ => by simp [lastWrite]⟩
  | cons e es ih =>
      intro g h w hg hb
      obtain ⟨ex, ey, ec⟩ := e
      have he := hb (ex, ey, ec) (by simp)
      have he1 : 0 ≤ ex := he.1
      have he2 : ex < (w : Int) := he.2.1
      have he3 : 0 ≤ ey := he.2.2.1
      have he4 : ey < (h : Int) := he.2.2.2
      obtain ⟨g2, hset, hrect2, hcell2⟩ := cell_pySet2 g h w hg ey ex ec he3 he4 he1 he2
      obtain ⟨g', hplace, hrect', hcell'⟩ :=
        ih g2 h w hrect2 (fun e' he' => hb e' (List.mem_cons_of_mem _ he'))
      refine ⟨g', ?_, hrect', ?_⟩
      · simp only [placeEntries, hset]
        exact hplace
      · intro y x hy hx
        rw [hcell' y x hy hx, hcell2 y x hy hx]
        cases hlw : lastWrite es (x : Int) (y : Int) with
        | some c => simp only [lastWrite, hlw, Option.getD_some]
        | none =>
            by_cases hc : ex = (x : Int) ∧ ey = (y : Int)
            · obtain ⟨hc1, hc2⟩ := hc
              have hnat : y = ey.toNat ∧ x = ex.toNat := ⟨by omega, by omega⟩
              simp only [lastWrite, hlw, if_pos hnat, Option.getD_none, Option.getD_some,
                if_pos (⟨hc1, hc2⟩ : ex = (x : Int) ∧ ey = (y : Int))]
            · have hnat : ¬(y = ey.toNat ∧ x = ex.toNat) := by
                intro hcon
                obtain ⟨hcon1, hcon2⟩ := hcon
                exact hc ⟨by omega, by omega⟩
              simp only [lastWrite, hlw, if_neg hnat, if_neg hc, Option.getD_none]

/-- Claim C5: for a non-empty entry list with non-negative coordinates, the
assembler builds a buffer of `max_y + 1` rows by `max_x + 1` columns, blank
`" "` everywhere except that each written cell holds the character of the
last entry (in list order) targeting its coordinate. -/
theorem assembleGrid_spec (es : List Entry) (hne : es ≠ [])
    (hnn : ∀ e ∈ es, 0 ≤ e.1 ∧ 0 ≤ e.2.1) :
    ∃ g, assembleGrid es = some g ∧
      g.length = (maxY es).toNat + 1 ∧
      (∀ row ∈ g, row.length = (maxX es).toNat + 1) ∧
      (∀ y x : Nat, y ≤ (maxY es).toNat → x ≤ (maxX es).toNat →
        cell g y x = (lastWrite es (x : Int) (y : Int)).getD [' ']) := by
  obtain ⟨e0, he0⟩ := List.exists_mem_of_ne_nil es hne
  have h0x : (0 : Int) ≤ maxX es := le_trans (hnn e0 he0).1 (le_maxX es e0 he0)
  have h0y : (0 : Int) ≤ maxY es := le_trans (hnn e0 he0).2 (le_maxY es e0 he0)
  have hb : ∀ e ∈ es, 0 ≤ e.1 ∧ e.1 < ((maxX es + 1).toNat : Int) ∧
      0 ≤ e.2.1 ∧ e.2.1 < ((maxY es + 1).toNat : Int) := by
    intro e he
    have hx := le_maxX es e he
    have hy := le_maxY es e he
    exact ⟨(hnn e he).1, by omega, (hnn e he).2, by omega⟩
  obtain ⟨g, hplace, ⟨hlen, hrows⟩, hcells⟩ :=
    placeEntries_spec es (blankGrid (maxX es + 1) (maxY es + 1))
      (maxY es + 1).toNat (maxX es + 1).toNat (rect_blank _ _) hb
  refine ⟨g, by rw [assembleGrid]; exact hplace, by rw [hlen]; omega, ?_, ?_⟩
  · intro row hrow
    rw [hrows row hrow]
    omega
  · intro y x hy hx
    have hy2 : y < (maxY es + 1).toNat := by omega
    have hx2 : x < (maxX es + 1).toNat := by omega
    rw [hcells y x hy2 hx2, blankGrid, cell_blank _ _ _ _ hy2 hx2]

/-- Witness for C5: entries at `(0,0)` and `(2,1)` assemble into exactly
2 rows and 3 columns with blanks in the untouched cells. -/
theorem assembleGrid_spec_witness :
    ([((0 : Int), (0 : Int), ['A']), ((2 : Int), (1 : Int), ['B'])] : List Entry) ≠ [] ∧
    (∀ e ∈ ([((0 : Int), (0 : Int), ['A']), ((2 : Int), (1 : Int), ['B'])] : List Entry),
      0 ≤ e.1 ∧ 0 ≤ e.2.1) ∧
    ∃ g, assembleGrid [((0 : Int), (0 : Int), ['A']), ((2 : Int), (1 : Int), ['B'])] = some g ∧
      g.length = (maxY [((0 : Int), (0 : Int), ['A']), ((2 : Int), (1 : Int), ['B'])]).toNat + 1 ∧
      (∀ row ∈ g, row.length =
        (maxX [((0 : Int), (0 : Int), ['A']), ((2 : Int), (1 : Int), ['B'])]).toNat + 1) ∧
      (∀ y x : Nat,
        y ≤ (maxY [((0 : Int), (0 : Int), ['A']), ((2 : Int), (1 : Int), ['B'])]).toNat →
        x ≤ (maxX [((0 : Int), (0 : Int), ['A']), ((2 : Int), (1 : Int), ['B'])]).toNat →
        cell g y x = (lastWrite [((0 : Int), (0 : Int), ['A']), ((2 : Int), (1 : Int), ['B'])]
          (x : Int) (y : Int)).getD [' ']) :=
  ⟨by decide, by decide, assembleGrid_spec _ (by decide) (by decide)⟩
